import Mathlib

/-!
Verification of the phantom-node trading system against its specification.

This file gives a shallow embedding (over ℚ) of the parts of the Python
sources that the specification's claims are about:

* the per-bar trade management and exit resolution of
  python_algo/backtest_cli.py (run_backtest) and
  python_algo/backtester.py (VectorizedBacktester.run);
* the backtest replayer state machine of backtest_cli.py (daily circuit
  breaker, daily reset, opening of new positions);
* manage_position of python_algo/strategy_v10.py / python_algo/strategy.py
  (the two bodies are line-for-line identical up to the time-stop constant,
  which is a parameter here);
* calculate_trailing_stop of python_algo/strategy_backup_optimized.py;
* the cooldown-memory skeleton of generate_signal in python_algo/strategy.py
  and _generate_original_signal in python_algo/strategy_backup.py;
* the position-size functions of all four strategy variants;
* the AdaptiveRiskManager of python_algo/main.py;
* the epsilon-guarded indicator kernels of
  python_algo/strategy_backup_optimized.py (calculate_indicators).

Machine floats are modelled as exact rationals; Python float division is
modelled by ℚ division (with x / 0 = 0 in Lean, noted where it matters).
Pure data-dependent predicates that the claims quantify over (gate booleans,
the signal a strategy would produce on a bar slice, session activity) are
inputs of the step functions, since every claim below quantifies over all
of their values.
-/

/-- Trade direction; the Python code uses the strings BUY and SELL. -/
inductive Act
  | buy
  | sell
deriving DecidableEq

/-- Exit reason attached to a closed trade by the backtest replayers. -/
inductive ExitReason
  | stopLoss
  | takeProfit
deriving DecidableEq

/-- Trailing-stop configuration carried inside a trade record of
backtest_cli.py (active_trade.signal.phantom_node.trailing_stop). -/
structure TrailCfg where
  enabled : Bool
  atrMult : ℚ
  startRR : ℚ
deriving DecidableEq

/-- An open trade of backtest_cli.run_backtest.  The trade dicts built in the
loop (lines 198-210) carry no signal key, so trailing is none for them;
it is kept as a field because the management code reads it. -/
structure CliTrade where
  action : Act
  entry : ℚ
  sl : ℚ
  tp : ℚ
  units : ℤ
  trailing : Option TrailCfg
deriving DecidableEq

/-- backtest_cli.run_backtest lines 86-104: optional ATR trailing of the stop,
ratcheted with max for a long and min for a short. -/
def cliTrailUpdate (t : CliTrade) (close atr : ℚ) : CliTrade :=
  match t.trailing with
  | none => t
  | some cfg =>
    if cfg.enabled then
      let slDist := if t.action = .sell then t.sl - t.entry else t.entry - t.sl
      if t.action = .buy then
        let currentRR := (close - t.entry) / slDist
        if cfg.startRR ≤ currentRR then
          { t with sl := max (close - cfg.atrMult * atr) t.sl } else t
      else
        let currentRR := (t.entry - close) / slDist
        if cfg.startRR ≤ currentRR then
          { t with sl := min (close + cfg.atrMult * atr) t.sl } else t
    else t

/-- backtest_cli.run_backtest lines 109-134: once the bar's extreme shows more
than 1R of favourable excursion, the stop is moved to entry plus a tenth of
the stop distance, only ever tightening. -/
def cliBreakeven (t : CliTrade) (high low : ℚ) : CliTrade :=
  if t.action = .buy then
    let slDist := t.entry - t.sl
    if t.entry + slDist < high then
      let newSl := t.entry + slDist * (1 / 10)
      if t.sl < newSl then { t with sl := newSl } else t
    else t
  else
    let slDist := t.sl - t.entry
    if low < t.entry - slDist then
      let newSl := t.entry - slDist * (1 / 10)
      if newSl < t.sl then { t with sl := newSl } else t
    else t

/-- backtest_cli.run_backtest lines 121-141: intrabar exit resolution; the
stop branch is tested before the target branch for both directions. -/
def cliExitCheck (t : CliTrade) (high low : ℚ) : Option (ℚ × ExitReason) :=
  if t.action = .buy then
    if low ≤ t.sl then some (t.sl, .stopLoss)
    else if t.tp ≤ high then some (t.tp, .takeProfit)
    else none
  else
    if t.sl ≤ high then some (t.sl, .stopLoss)
    else if low ≤ t.tp then some (t.tp, .takeProfit)
    else none

/-- One bar of trade management in backtest_cli.run_backtest (lines 79-141):
trailing update, then breakeven update, then exit resolution. -/
def cliManageBar (t : CliTrade) (high low close atr : ℚ) :
    CliTrade × Option (ℚ × ExitReason) :=
  let t1 := cliTrailUpdate t close atr
  let t2 := cliBreakeven t1 high low
  (t2, cliExitCheck t2 high low)

/-- backtester.VectorizedBacktester.run lines 37-51: exit resolution of the
vectorized backtester; stop before target, no intra-bar stop updates. -/
def btExitCheck (action : Act) (sl tp high low : ℚ) : Option (ℚ × ExitReason) :=
  if action = .buy then
    if low ≤ sl then some (sl, .stopLoss)
    else if tp ≤ high then some (tp, .takeProfit)
    else none
  else
    if sl ≤ high then some (sl, .stopLoss)
    else if low ≤ tp then some (tp, .takeProfit)
    else none

theorem cliTrailUpdate_action (t : CliTrade) (c a : ℚ) :
    (cliTrailUpdate t c a).action = t.action := by
  unfold cliTrailUpdate
  cases t.trailing
  · rfl
  · simp only
    split_ifs <;> rfl

theorem cliTrailUpdate_tp (t : CliTrade) (c a : ℚ) :
    (cliTrailUpdate t c a).tp = t.tp := by
  unfold cliTrailUpdate
  cases t.trailing
  · rfl
  · simp only
    split_ifs <;> rfl

theorem cliTrailUpdate_sl_buy (t : CliTrade) (c a : ℚ) (h : t.action = .buy) :
    t.sl ≤ (cliTrailUpdate t c a).sl := by
  unfold cliTrailUpdate
  cases t.trailing
  · exact le_refl _
  · simp only [h]
    split_ifs <;> simp_all

theorem cliTrailUpdate_sl_sell (t : CliTrade) (c a : ℚ) (h : t.action = .sell) :
    (cliTrailUpdate t c a).sl ≤ t.sl := by
  unfold cliTrailUpdate
  cases t.trailing
  · exact le_refl _
  · simp only [h]
    split_ifs <;> simp_all

theorem cliBreakeven_action (t : CliTrade) (hi lo : ℚ) :
    (cliBreakeven t hi lo).action = t.action := by
  simp only [cliBreakeven]
  split_ifs <;> rfl

theorem cliBreakeven_tp (t : CliTrade) (hi lo : ℚ) :
    (cliBreakeven t hi lo).tp = t.tp := by
  simp only [cliBreakeven]
  split_ifs <;> rfl

theorem cliBreakeven_sl_buy (t : CliTrade) (hi lo : ℚ) (h : t.action = .buy) :
    t.sl ≤ (cliBreakeven t hi lo).sl := by
  simp only [cliBreakeven, h]
  split_ifs <;> simp_all <;> linarith

theorem cliBreakeven_sl_sell (t : CliTrade) (hi lo : ℚ) (h : t.action = .sell) :
    (cliBreakeven t hi lo).sl ≤ t.sl := by
  simp only [cliBreakeven, h]
  split_ifs <;> simp_all <;> linarith

/-- C1: for every open position and every bar whose range touches both the
stop and the target (low ≤ stop and high ≥ target for a long; high ≥ stop and
low ≤ target for a short), the per-bar update of backtest_cli.run_backtest and
the exit resolution of VectorizedBacktester.run resolve the bar as a stop-loss
exit (exit price = the trade's stop, reason = stop loss), never as a
take-profit exit. -/
theorem C1_stop_resolved_before_target :
    (∀ (t : CliTrade) (high low close atr : ℚ),
        t.action = .buy → low ≤ t.sl → t.tp ≤ high →
        (cliManageBar t high low close atr).2 =
          some ((cliManageBar t high low close atr).1.sl, ExitReason.stopLoss)) ∧
    (∀ (t : CliTrade) (high low close atr : ℚ),
        t.action = .sell → t.sl ≤ high → low ≤ t.tp →
        (cliManageBar t high low close atr).2 =
          some ((cliManageBar t high low close atr).1.sl, ExitReason.stopLoss)) ∧
    (∀ (action : Act) (sl tp high low : ℚ),
        action = .buy → low ≤ sl → tp ≤ high →
        btExitCheck action sl tp high low = some (sl, ExitReason.stopLoss)) ∧
    (∀ (action : Act) (sl tp high low : ℚ),
        action = .sell → sl ≤ high → low ≤ tp →
        btExitCheck action sl tp high low = some (sl, ExitReason.stopLoss)) := by
  refine ⟨?_, ?_, ?_, ?_⟩
  · intro t high low close atr ha hlo _
    have h1 : t.sl ≤ (cliTrailUpdate t close atr).sl := cliTrailUpdate_sl_buy t close atr ha
    have ha1 : (cliTrailUpdate t close atr).action = Act.buy := by
      rw [cliTrailUpdate_action]; exact ha
    have h2 : (cliTrailUpdate t close atr).sl ≤
        (cliBreakeven (cliTrailUpdate t close atr) high low).sl :=
      cliBreakeven_sl_buy _ high low ha1
    have ha2 : (cliBreakeven (cliTrailUpdate t close atr) high low).action = Act.buy := by
      rw [cliBreakeven_action]; exact ha1
    have hlo2 : low ≤ (cliBreakeven (cliTrailUpdate t close atr) high low).sl :=
      le_trans hlo (le_trans h1 h2)
    simp [cliManageBar, cliExitCheck, ha2, hlo2]
  · intro t high low close atr ha hhi _
    have h1 : (cliTrailUpdate t close atr).sl ≤ t.sl := cliTrailUpdate_sl_sell t close atr ha
    have ha1 : (cliTrailUpdate t close atr).action = Act.sell := by
      rw [cliTrailUpdate_action]; exact ha
    have h2 : (cliBreakeven (cliTrailUpdate t close atr) high low).sl ≤
        (cliTrailUpdate t close atr).sl :=
      cliBreakeven_sl_sell _ high low ha1
    have ha2 : (cliBreakeven (cliTrailUpdate t close atr) high low).action = Act.sell := by
      rw [cliBreakeven_action]; exact ha1
    have hhi2 : (cliBreakeven (cliTrailUpdate t close atr) high low).sl ≤ high :=
      le_trans (le_trans h2 h1) hhi
    simp [cliManageBar, cliExitCheck, ha2, hhi2]
  · intro action sl tp high low ha hlo _
    simp [btExitCheck, ha, hlo]
  · intro action sl tp high low ha hhi _
    simp [btExitCheck, ha, hhi]

/-- Witness for C1 at concrete bars that touch both stop and target of a long
and of a short, in both replayers. -/
theorem C1_stop_resolved_before_target_witness :
    (cliManageBar ⟨Act.buy, 100, 99, 102, 1, Option.none⟩ 103 98 101 1).2 =
      some ((cliManageBar ⟨Act.buy, 100, 99, 102, 1, Option.none⟩ 103 98 101 1).1.sl,
        ExitReason.stopLoss) ∧
    (cliManageBar ⟨Act.sell, 100, 101, 98, (-1), Option.none⟩ 102 97 99 1).2 =
      some ((cliManageBar ⟨Act.sell, 100, 101, 98, (-1), Option.none⟩ 102 97 99 1).1.sl,
        ExitReason.stopLoss) ∧
    btExitCheck Act.buy 99 102 103 98 = some (99, ExitReason.stopLoss) ∧
    btExitCheck Act.sell 101 98 102 97 = some (101, ExitReason.stopLoss) :=
  ⟨C1_stop_resolved_before_target.1 _ 103 98 101 1 rfl (by norm_num) (by norm_num),
   C1_stop_resolved_before_target.2.1 _ 102 97 99 1 rfl (by norm_num) (by norm_num),
   C1_stop_resolved_before_target.2.2.1 _ 99 102 103 98 rfl (by norm_num) (by norm_num),
   C1_stop_resolved_before_target.2.2.2 _ 101 98 102 97 rfl (by norm_num) (by norm_num)⟩

/-- Python int() applied to a nonnegative-or-negative rational: truncation
toward zero (backtest_cli.py line 191, units = int(risk_amount / sl_dist)). -/
def pyTrunc (q : ℚ) : ℤ :=
  Int.sign q.num * ((q.num.natAbs / q.den : ℕ) : ℤ)

/-- State of the backtest_cli.run_backtest loop that feeds back into its
control flow.  The trade ledger and equity curve are append-only outputs and
are omitted. -/
structure CliState where
  equity : ℚ
  active : Option CliTrade
  dailyPnl : ℚ
  lastDate : Option ℤ
deriving DecidableEq

/-- A BUY or SELL decision produced by the strategy on the bar slice; the
replay loop reads only these fields of it (HOLD is the none case at the use
site). -/
structure SigOut where
  action : Act
  entry : ℚ
  sl : ℚ
  tp : ℚ
deriving DecidableEq

/-- One input bar of the replay loop: the bar data together with the values
of the two pure data-dependent calls made in the loop body (the session
filter on the bar date and the signal the strategy generates on the slice up
to this bar); the claims quantify over all of their values. -/
structure BarIn where
  date : ℤ
  high : ℚ
  low : ℚ
  close : ℚ
  atr : ℚ
  sessionActive : Bool
  signal : Option SigOut
deriving DecidableEq

/-- backtest_cli.run_backtest lines 143-164: close the active trade at the
exit price with the USD/JPY pnl conversion, updating equity and daily pnl
and clearing the active trade. -/
def cliCloseTrade (s : CliState) (t : CliTrade) (price : ℚ) : CliState :=
  let priceDiff := if t.action = .sell then -(price - t.entry) else price - t.entry
  let pnlJpy := priceDiff * |(t.units : ℚ)| * 100000 * (1 / 100)
  let pnl := pnlJpy / price
  { s with equity := s.equity + pnl, dailyPnl := s.dailyPnl + pnl, active := none }

/-- backtest_cli.run_backtest lines 185-192 (calc_units_usdjpy): OANDA units
from the risked fraction of the balance over the stop distance. -/
def calcUnitsUsdjpy (balance riskPct entry sl : ℚ) : ℤ :=
  let slDist := |entry - sl|
  if slDist ≤ 0 then 0
  else pyTrunc (balance * riskPct / slDist)

/-- One iteration of the replay loop of backtest_cli.run_backtest
(lines 65-212): daily reset on a date change, management of the active trade,
then the circuit-breaker-guarded session/signal check and position opening
(the trade dict built at lines 198-210 has no signal key, hence trailing is
none). -/
def cliStep (maxDailyLoss riskPct : ℚ) (s : CliState) (b : BarIn) : CliState :=
  let s1 := if s.lastDate ≠ some b.date then
    { s with dailyPnl := 0, lastDate := some b.date } else s
  let s2 := match s1.active with
    | none => s1
    | some t =>
      match cliManageBar t b.high b.low b.close b.atr with
      | (t', some (price, _)) => cliCloseTrade s1 t' price
      | (t', none) => { s1 with active := some t' }
  if s2.active = none ∧ -maxDailyLoss < s2.dailyPnl then
    if b.sessionActive then
      match b.signal with
      | none => s2
      | some sig =>
        let slDist := |sig.entry - sig.sl|
        if 0 < slDist then
          let u := calcUnitsUsdjpy s2.equity riskPct sig.entry sig.sl
          { s2 with active := some (CliTrade.mk sig.action sig.entry sig.sl sig.tp
              (if sig.action = .sell then -u else u) none) }
        else s2
    else s2
  else s2

theorem cliStep_breached_frozen (m r : ℚ) (s : CliState) (b : BarIn) (d : ℤ)
    (hactive : s.active = none) (hpnl : s.dailyPnl ≤ -m)
    (hdate : s.lastDate = some d) (hb : b.date = d) :
    (cliStep m r s b).active = none ∧ (cliStep m r s b).dailyPnl = s.dailyPnl ∧
    (cliStep m r s b).lastDate = some d ∧ (cliStep m r s b).equity = s.equity := by
  have h1 : ¬ (s.lastDate ≠ some b.date) := by rw [hdate, hb]; simp
  have h2 : ¬ (-m < s.dailyPnl) := not_lt.mpr hpnl
  simp [cliStep, h1, hactive, h2, hdate, hb]

/-- C5: in the backtest replayer, once cumulative daily realized pnl is at or
below minus max_daily_loss and no position is open, no new position opens on
any later bar of the same calendar day (and the daily pnl stays frozen), even
if the signal engine emits BUY or SELL on those bars; on the first bar of a
new day the daily pnl is reset to 0 and opening becomes possible again. -/
theorem C5_daily_circuit_breaker (m r : ℚ) :
    (∀ (s : CliState) (d : ℤ) (bars : List BarIn),
        s.active = none → s.dailyPnl ≤ -m → s.lastDate = some d →
        (∀ b ∈ bars, b.date = d) →
        (List.foldl (cliStep m r) s bars).active = none ∧
        (List.foldl (cliStep m r) s bars).dailyPnl = s.dailyPnl) ∧
    (∀ (s : CliState) (d : ℤ) (b : BarIn) (sig : SigOut),
        s.active = none → s.dailyPnl ≤ -m → s.lastDate = some d →
        b.date ≠ d → b.sessionActive = true → b.signal = some sig →
        0 < |sig.entry - sig.sl| → 0 < m →
        (cliStep m r s b).active ≠ none ∧ (cliStep m r s b).dailyPnl = 0) := by
  constructor
  · intro s d bars
    induction bars generalizing s with
    | nil =>
      intro hact _ _ _
      exact ⟨hact, rfl⟩
    | cons b bs ih =>
      intro hact hpnl hdate hall
      have hb : b.date = d := hall b (List.mem_cons_self _ _)
      have step := cliStep_breached_frozen m r s b d hact hpnl hdate hb
      have hrec := ih (cliStep m r s b) step.1 (step.2.1 ▸ hpnl) step.2.2.1
        (fun b' hb' => hall b' (List.mem_cons_of_mem _ hb'))
      refine ⟨hrec.1, ?_⟩
      rw [List.foldl_cons] at *
      rw [hrec.2, step.2.1]
  · intro s d b sig hact hpnl hdate hbd hsess hsig hdist hm
    have h1 : s.lastDate ≠ some b.date := by
      rw [hdate]
      simp only [ne_eq, Option.some.injEq]
      exact fun h => hbd h.symm
    have h2 : -m < (0 : ℚ) := by linarith
    constructor
    · simp [cliStep, h1, hact, h2, hsess, hsig, hdist]
    · simp [cliStep, h1, hact, h2, hsess, hsig, hdist]

/-- Witness for C5: a breached state ignores a full BUY signal on the same
day, and opens on a new day. -/
theorem C5_daily_circuit_breaker_witness :
    (List.foldl (cliStep 500 (1 / 100)) ⟨10000, Option.none, -500, some 0⟩
        [⟨0, 101, 99, 100, 1, true, some ⟨Act.buy, 100, 99, 102⟩⟩]).active = Option.none ∧
    (cliStep 500 (1 / 100) ⟨10000, Option.none, -500, some 0⟩
        ⟨1, 101, 99, 100, 1, true, some ⟨Act.buy, 100, 99, 102⟩⟩).active ≠ Option.none :=
  ⟨((C5_daily_circuit_breaker 500 (1 / 100)).1 _ 0 _ rfl (by norm_num) rfl
      (by intro b hb; rw [List.mem_singleton] at hb; subst hb; rfl)).1,
   ((C5_daily_circuit_breaker 500 (1 / 100)).2 _ 0 _ ⟨Act.buy, 100, 99, 102⟩ rfl
      (by norm_num) rfl (by norm_num) rfl rfl (by norm_num) (by norm_num)).1⟩

/-- Reason attached to a CLOSE event of manage_position. -/
inductive CloseReason
  | timeExit
  | stopLoss
  | takeProfit
deriving DecidableEq

/-- Event returned by manage_position: a full close, or one of the two
scale-outs (the source's PARTIAL_CLOSE at 2R and 3R). -/
inductive PosEvent
  | close (price pnl : ℚ) (reason : CloseReason)
  | scaleOut (price pnl size : ℚ)
deriving DecidableEq

/-- An open position as the dict consumed by manage_position in
strategy_v10.py and strategy.py.  The three Boolean flags model the presence
of the breakeven / partial_taken / partial2_taken keys (a missing key is
false).  atr models the value position.get reads for the atr key.  Times are
in hours. -/
structure Pos where
  action : Act
  entry : ℚ
  sl : ℚ
  tp : ℚ
  size : ℚ
  atr : ℚ
  entryTime : ℚ
  breakeven : Bool
  tookScaleOut1 : Bool
  tookScaleOut2 : Bool
deriving DecidableEq

/-- Signed pip excursion of the position at the given price
(manage_position lines 313-317 of strategy.py, 410-414 of strategy_v10.py). -/
def managePips (p : Pos) (price : ℚ) : ℚ :=
  if p.action = .buy then (price - p.entry) * 100 else (p.entry - price) * 100

/-- Initial risk in pips, computed from the live stop before any move of this
call (line 332 of strategy.py / 429 of strategy_v10.py). -/
def manageRisk (p : Pos) : ℚ := |p.entry - p.sl| * 100

/-- Breakeven move of manage_position (lines 335-340 / 432-437): when the
breakeven key is absent and abs(pips) has reached 1R, set the flag and move
the stop to entry.  The source tests abs(pips), so this also fires on an
adverse excursion of 1R or more. -/
def bePhase (p : Pos) (pips riskPips : ℚ) : Pos :=
  if p.breakeven = false ∧ riskPips ≤ |pips| then
    { p with breakeven := true, sl := p.entry } else p

/-- One trailing tier of manage_position (lines 343-362 / 440-459):
ratchet the stop to price ∓ atr·mult once abs(pips) reaches tier·riskPips;
the tiers are (2, 2·atr) and (3, 1.5·atr). -/
def trailPhase (tier mult : ℚ) (p : Pos) (price pips riskPips : ℚ) : Pos :=
  if tier * riskPips ≤ |pips| then
    (if p.action = .buy then
      (let newSl := price - p.atr * mult
       if p.sl < newSl then { p with sl := newSl } else p)
     else
      (let newSl := price + p.atr * mult
       if newSl < p.sl then { p with sl := newSl } else p))
  else p

/-- The three stop-moving phases of one manage_position call in order:
breakeven, 2R trailing, 3R trailing. -/
def manageStops (p : Pos) (price : ℚ) : Pos :=
  trailPhase 3 (3 / 2)
    (trailPhase 2 2
      (bePhase p (managePips p price) (manageRisk p))
      price (managePips p price) (manageRisk p))
    price (managePips p price) (manageRisk p)

/-- strategy_v10.PhantomNodeV10.manage_position (lines 402-517) and the
line-for-line identical strategy.UsdJpyQuantStrategy.manage_position
(lines 305-420); hours is the time-stop constant (12 in both callers). -/
def managePosition (hours : ℚ) (p : Pos) (price now : ℚ) :
    Option Pos × Option PosEvent :=
  let pips := managePips p price
  let pnl := pips * p.size * 10
  if hours < now - p.entryTime then (none, some (.close price pnl .timeExit))
  else
    let riskPips := manageRisk p
    let p3 := manageStops p price
    if (p3.action = .buy ∧ price ≤ p3.sl) ∨ (p3.action = .sell ∧ p3.sl ≤ price) then
      let pips2 := if p3.action = .buy then (p3.sl - p3.entry) * 100
        else (p3.entry - p3.sl) * 100
      (none, some (.close p3.sl (pips2 * p3.size * 10) .stopLoss))
    else if (p3.action = .buy ∧ p3.tp ≤ price) ∨ (p3.action = .sell ∧ price ≤ p3.tp) then
      let pips2 := if p3.action = .buy then (p3.tp - p3.entry) * 100
        else (p3.entry - p3.tp) * 100
      (none, some (.close p3.tp (pips2 * p3.size * 10) .takeProfit))
    else if p3.tookScaleOut1 = false ∧ 2 * riskPips ≤ |pips| then
      (some { p3 with tookScaleOut1 := true, size := p3.size * (75 / 100) },
       some (.scaleOut price (pnl * (25 / 100)) (p3.size * (25 / 100))))
    else if p3.tookScaleOut2 = false ∧ p3.tookScaleOut1 = true ∧ 3 * riskPips ≤ |pips| then
      (some { p3 with tookScaleOut2 := true, size := p3.size * (667 / 1000) },
       some (.scaleOut price (pnl * (333 / 1000)) (p3.size * (333 / 1000))))
    else (some p3, none)

/-- Internal consistency of a managed position: until the breakeven flag is
set, the stop is still on the entry's loss side.  Every freshly opened
position satisfies this (its stop is entry ∓ a nonnegative ATR distance) and
every update preserves it. -/
def wfPos (p : Pos) : Prop :=
  p.breakeven = false →
    ((p.action = .buy → p.sl ≤ p.entry) ∧ (p.action = .sell → p.entry ≤ p.sl))

theorem wfPos_of_breakeven (p : Pos) (h : p.breakeven = true) : wfPos p := by
  intro hf
  rw [h] at hf
  cases hf

theorem bePhase_action (p : Pos) (a b : ℚ) : (bePhase p a b).action = p.action := by
  unfold bePhase
  split_ifs <;> rfl

theorem bePhase_entry (p : Pos) (a b : ℚ) : (bePhase p a b).entry = p.entry := by
  unfold bePhase
  split_ifs <;> rfl

theorem bePhase_false (p : Pos) (a b : ℚ) (h : (bePhase p a b).breakeven = false) :
    bePhase p a b = p ∧ p.breakeven = false ∧ ¬ b ≤ |a| := by
  by_cases hc : p.breakeven = false ∧ b ≤ |a|
  · exfalso
    unfold bePhase at h
    rw [if_pos hc] at h
    simp at h
  · unfold bePhase at h ⊢
    rw [if_neg hc] at h ⊢
    rcases not_and_or.mp hc with hb | hr
    · exact absurd h hb
    · exact ⟨rfl, h, hr⟩

theorem bePhase_sl_buy (p : Pos) (a b : ℚ) (hwf : wfPos p) (h : p.action = .buy) :
    p.sl ≤ (bePhase p a b).sl := by
  unfold bePhase
  split_ifs with hc
  · simpa using (hwf hc.1).1 h
  · exact le_refl _

theorem bePhase_sl_sell (p : Pos) (a b : ℚ) (hwf : wfPos p) (h : p.action = .sell) :
    (bePhase p a b).sl ≤ p.sl := by
  unfold bePhase
  split_ifs with hc
  · simpa using (hwf hc.1).2 h
  · exact le_refl _

theorem trailPhase_action (t m : ℚ) (p : Pos) (pr a b : ℚ) :
    (trailPhase t m p pr a b).action = p.action := by
  simp only [trailPhase]
  split_ifs <;> rfl

theorem trailPhase_entry (t m : ℚ) (p : Pos) (pr a b : ℚ) :
    (trailPhase t m p pr a b).entry = p.entry := by
  simp only [trailPhase]
  split_ifs <;> rfl

theorem trailPhase_breakeven (t m : ℚ) (p : Pos) (pr a b : ℚ) :
    (trailPhase t m p pr a b).breakeven = p.breakeven := by
  simp only [trailPhase]
  split_ifs <;> rfl

theorem trailPhase_sl_buy (t m : ℚ) (p : Pos) (pr a b : ℚ) (h : p.action = .buy) :
    p.sl ≤ (trailPhase t m p pr a b).sl := by
  simp only [trailPhase, h]
  split_ifs <;> simp_all <;> linarith

theorem trailPhase_sl_sell (t m : ℚ) (p : Pos) (pr a b : ℚ) (h : p.action = .sell) :
    (trailPhase t m p pr a b).sl ≤ p.sl := by
  simp only [trailPhase, h]
  split_ifs <;> simp_all <;> linarith

theorem trailPhase_noop (t m : ℚ) (p : Pos) (pr a b : ℚ) (h : ¬ t * b ≤ |a|) :
    trailPhase t m p pr a b = p := by
  simp only [trailPhase]
  rw [if_neg h]

theorem manageStops_spec (p : Pos) (price : ℚ) (hwf : wfPos p) :
    (manageStops p price).action = p.action ∧
    (manageStops p price).entry = p.entry ∧
    (p.action = .buy → p.sl ≤ (manageStops p price).sl) ∧
    (p.action = .sell → (manageStops p price).sl ≤ p.sl) ∧
    wfPos (manageStops p price) := by
  have hb0 : 0 ≤ manageRisk p := by
    unfold manageRisk
    positivity
  by_cases hbe : (bePhase p (managePips p price) (manageRisk p)).breakeven = false
  · obtain ⟨heq, _, hnot⟩ := bePhase_false p _ _ hbe
    have h2 : ¬ 2 * manageRisk p ≤ |managePips p price| :=
      fun h => hnot (le_trans (by linarith) h)
    have h3 : ¬ 3 * manageRisk p ≤ |managePips p price| :=
      fun h => hnot (le_trans (by linarith) h)
    unfold manageStops
    rw [heq, trailPhase_noop _ _ _ _ _ _ h2, trailPhase_noop _ _ _ _ _ _ h3]
    exact ⟨rfl, rfl, fun _ => le_refl _, fun _ => le_refl _, hwf⟩
  · have hbe' : (bePhase p (managePips p price) (manageRisk p)).breakeven = true := by
      cases h : (bePhase p (managePips p price) (manageRisk p)).breakeven
      · exact absurd h hbe
      · rfl
    unfold manageStops
    set q := bePhase p (managePips p price) (manageRisk p) with hq
    set q2 := trailPhase 2 2 q price (managePips p price) (manageRisk p) with hq2
    set q3 := trailPhase 3 (3 / 2) q2 price (managePips p price) (manageRisk p) with hq3
    have haq : q.action = p.action := bePhase_action _ _ _
    have haq2 : q2.action = q.action := trailPhase_action _ _ _ _ _ _
    have haq3 : q3.action = q2.action := trailPhase_action _ _ _ _ _ _
    have heq : q.entry = p.entry := bePhase_entry _ _ _
    have heq2 : q2.entry = q.entry := trailPhase_entry _ _ _ _ _ _
    have heq3 : q3.entry = q2.entry := trailPhase_entry _ _ _ _ _ _
    refine ⟨by rw [haq3, haq2, haq], by rw [heq3, heq2, heq], ?_, ?_, ?_⟩
    · intro h
      have s1 : p.sl ≤ q.sl := bePhase_sl_buy p _ _ hwf h
      have s2 : q.sl ≤ q2.sl := trailPhase_sl_buy _ _ _ _ _ _ (haq.trans h)
      have s3 : q2.sl ≤ q3.sl := trailPhase_sl_buy _ _ _ _ _ _ (haq2.trans (haq.trans h))
      linarith
    · intro h
      have s1 : q.sl ≤ p.sl := bePhase_sl_sell p _ _ hwf h
      have s2 : q2.sl ≤ q.sl := trailPhase_sl_sell _ _ _ _ _ _ (haq.trans h)
      have s3 : q3.sl ≤ q2.sl := trailPhase_sl_sell _ _ _ _ _ _ (haq2.trans (haq.trans h))
      linarith
    · apply wfPos_of_breakeven
      rw [trailPhase_breakeven, trailPhase_breakeven]
      exact hbe'

theorem wfPos_congr (p q : Pos) (hb : q.breakeven = p.breakeven)
    (ha : q.action = p.action) (hs : q.sl = p.sl) (he : q.entry = p.entry)
    (h : wfPos p) : wfPos q := by
  intro hf
  rw [hb] at hf
  have h2 := h hf
  constructor
  · intro hq
    rw [hs, he]
    exact h2.1 (by rw [← ha]; exact hq)
  · intro hq
    rw [hs, he]
    exact h2.2 (by rw [← ha]; exact hq)

theorem managePosition_mono (hours : ℚ) (p : Pos) (price now : ℚ) (q : Pos)
    (hwf : wfPos p) (hq : (managePosition hours p price now).1 = some q) :
    q.action = p.action ∧ q.entry = p.entry ∧
    (p.action = .buy → p.sl ≤ q.sl) ∧ (p.action = .sell → q.sl ≤ p.sl) ∧
    wfPos q := by
  obtain ⟨ha3, he3, hsb, hss, hwf3⟩ := manageStops_spec p price hwf
  simp only [managePosition] at hq
  split_ifs at hq <;>
    first
      | exact Option.noConfusion hq
      | · simp only [Option.some.injEq] at hq
          subst hq
          exact ⟨ha3, he3, hsb, hss, wfPos_congr _ _ rfl rfl rfl rfl hwf3⟩

/-- Iterated manage_position calls on an open position; each call supplies a
price and a current time, and the run ends when a call closes the position. -/
def runManage (hours : ℚ) : Pos → List (ℚ × ℚ) → Option Pos
  | p, [] => some p
  | p, (price, now) :: rest =>
    match (managePosition hours p price now).1 with
    | none => none
    | some q => runManage hours q rest

/-- Parameters of strategy_backup_optimized read by calculate_trailing_stop:
trailing_stop_enabled, trailing_stop_start_rr, atr_multiplier_sl. -/
structure TrailParams where
  enabled : Bool
  startRR : ℚ
  slAtrMult : ℚ
deriving DecidableEq

/-- strategy_backup_optimized.UsdJpyQuantStrategy.calculate_trailing_stop
(lines 151-166): the new stop for the position.  The current-R computation
divides by the live stop distance; Lean's x / 0 = 0 stands in for the
ZeroDivisionError Python would raise when the stop equals entry, and the
returned stop is ratcheted with max / min either way. -/
def calculateTrailingStop (cfg : TrailParams) (action : Act)
    (sl price atr entry : ℚ) : ℚ :=
  if cfg.enabled = false then sl
  else
    let currentRR := if action = .buy then (price - entry) / (entry - sl)
      else (entry - price) / (sl - entry)
    if currentRR < cfg.startRR then sl
    else if action = .buy then max (price - cfg.slAtrMult * atr) sl
    else min (price + cfg.slAtrMult * atr) sl

theorem calculateTrailingStop_mono (cfg : TrailParams) (action : Act)
    (sl price atr entry : ℚ) :
    (action = .buy → sl ≤ calculateTrailingStop cfg action sl price atr entry) ∧
    (action = .sell → calculateTrailingStop cfg action sl price atr entry ≤ sl) := by
  constructor <;> intro h <;> simp only [calculateTrailingStop, h] <;>
    split_ifs <;> simp_all

/-- Iterated calculate_trailing_stop assignments for one position: a fixed
direction and entry, a running stop, and per-call price and ATR inputs. -/
def runTrail (cfg : TrailParams) (action : Act) (entry : ℚ) :
    ℚ → List (ℚ × ℚ) → ℚ
  | sl, [] => sl
  | sl, (price, atr) :: rest =>
    runTrail cfg action entry (calculateTrailingStop cfg action sl price atr entry) rest

/-- C3: over every sequence of successive manage_position updates of a
well-formed open position, and over every sequence of successive
calculate_trailing_stop updates, the stop of a BUY position never decreases
and the stop of a SELL position never increases: no update loosens the stop. -/
theorem C3_stop_monotonic :
    (∀ (hours : ℚ) (p : Pos) (updates : List (ℚ × ℚ)) (q : Pos),
        wfPos p → runManage hours p updates = some q →
        (p.action = .buy → p.sl ≤ q.sl) ∧ (p.action = .sell → q.sl ≤ p.sl)) ∧
    (∀ (cfg : TrailParams) (action : Act) (entry sl : ℚ) (updates : List (ℚ × ℚ)),
        (action = .buy → sl ≤ runTrail cfg action entry sl updates) ∧
        (action = .sell → runTrail cfg action entry sl updates ≤ sl)) := by
  constructor
  · intro hours p updates
    induction updates generalizing p with
    | nil =>
      intro q _ hq
      simp only [runManage, Option.some.injEq] at hq
      subst hq
      exact ⟨fun _ => le_refl _, fun _ => le_refl _⟩
    | cons u rest ih =>
      intro q hwf hq
      obtain ⟨price, now⟩ := u
      simp only [runManage] at hq
      cases h1 : (managePosition hours p price now).1 with
      | none => rw [h1] at hq; cases hq
      | some p' =>
        rw [h1] at hq
        obtain ⟨ha, _, hsb, hss, hwf'⟩ := managePosition_mono hours p price now p' hwf h1
        have hrec := ih p' q hwf' hq
        constructor
        · intro h
          exact le_trans (hsb h) (hrec.1 (ha.trans h))
        · intro h
          exact le_trans (hrec.2 (ha.trans h)) (hss h)
  · intro cfg action entry sl updates
    induction updates generalizing sl with
    | nil => exact ⟨fun _ => le_refl _, fun _ => le_refl _⟩
    | cons u rest ih =>
      obtain ⟨price, atr⟩ := u
      have hstep := calculateTrailingStop_mono cfg action sl price atr entry
      have hrec := ih (calculateTrailingStop cfg action sl price atr entry)
      constructor
      · intro h
        exact le_trans (hstep.1 h) ((by simpa [runTrail] using hrec.1 h))
      · intro h
        exact le_trans ((by simpa [runTrail] using hrec.2 h)) (hstep.2 h)

/-- Witness for C3: a long position managed through one 2R bar keeps a
non-decreased stop, and one trailing-stop run never lowers a long stop. -/
theorem C3_stop_monotonic_witness :
    ((⟨Act.buy, 100, 99, 104, 1, 1, 0, false, false, false⟩ : Pos).sl ≤
      (⟨Act.buy, 100, 100, 104, 3 / 4, 1, 0, true, true, false⟩ : Pos).sl) ∧
    (99 : ℚ) ≤ runTrail ⟨true, 2, 21 / 10⟩ Act.buy 100 99 [(103, 1)] :=
  ⟨(C3_stop_monotonic.1 12 ⟨Act.buy, 100, 99, 104, 1, 1, 0, false, false, false⟩
      [(102, 1)] ⟨Act.buy, 100, 100, 104, 3 / 4, 1, 0, true, true, false⟩
      (fun _ => ⟨fun _ => by norm_num, fun hs => Act.noConfusion hs⟩)
      (by norm_num [runManage, managePosition, manageStops, bePhase, trailPhase,
        managePips, manageRisk] <;> rfl)).1 rfl,
   (C3_stop_monotonic.2 ⟨true, 2, 21 / 10⟩ Act.buy 100 99 [(103, 1)]).1 rfl⟩

/-- C2 (evaluation of the code at the failing input): a long position with
entry 100 and stop 99 that is at a 2-pip-beyond-1R LOSS (price 98) has the
breakeven rule fire, because the source tests abs(pips) ≥ risk_pips: the stop
is moved up to the entry 100 while the position is losing, and the call then
closes the trade at price 100 with pnl 0 instead of at the stop 99 with the
1R loss of -1000.  The claim says the rule fires only at ≥ 1R profit and
never at a loss. -/
theorem C2_breakeven_fires_at_loss :
    managePosition 12 ⟨Act.buy, 100, 99, 104, 1, 1, 0, false, false, false⟩ 98 0 =
      (Option.none, some (PosEvent.close 100 0 CloseReason.stopLoss)) ∧
    managePips ⟨Act.buy, 100, 99, 104, 1, 1, 0, false, false, false⟩ 98 < 0 := by
  constructor
  · norm_num [managePosition, manageStops, bePhase, trailPhase, managePips, manageRisk]
  · norm_num [managePips]

/-- Round half to even of a rational to an integer (the rounding Python's
builtin round performs). -/
def roundHalfEven (q : ℚ) : ℤ :=
  let f := ⌊q⌋
  let r := q - f
  if r < 1 / 2 then f
  else if 1 / 2 < r then f + 1
  else if f % 2 = 0 then f else f + 1

/-- Python round(x, 2): round half to even at two decimal places. -/
def round2 (q : ℚ) : ℚ := (roundHalfEven (q * 100) : ℚ) / 100

theorem roundHalfEven_ge_one (q : ℚ) (h : 1 ≤ q) : 1 ≤ roundHalfEven q := by
  have hf : (1 : ℤ) ≤ ⌊q⌋ := by
    rw [Int.le_floor]
    exact_mod_cast h
  simp only [roundHalfEven]
  split_ifs <;> omega

theorem round2_ge_min (q : ℚ) (h : 1 / 100 ≤ q) : 1 / 100 ≤ round2 q := by
  have h1 : (1 : ℚ) ≤ q * 100 := by linarith
  have h2 := roundHalfEven_ge_one (q * 100) h1
  have h3 : (1 : ℚ) ≤ (roundHalfEven (q * 100) : ℚ) := by exact_mod_cast h2
  unfold round2
  linarith

/-- strategy.UsdJpyQuantStrategy.calculate_position_size (lines 55-69):
1% of balance times signal strength over the pip risk, clamped to
[0.01, 0.8] and rounded to two decimals; a zero pip risk returns 0.01. -/
def calcPosStrategy (balance entry sl strength : ℚ) : ℚ :=
  let riskAmount := balance * (1 / 100) * strength
  let riskPerPip := |entry - sl| * 100
  if riskPerPip = 0 then 1 / 100
  else round2 (max (1 / 100) (min (riskAmount / (riskPerPip * 10)) (8 / 10)))

/-- strategy_v10.PhantomNodeV10.calculate_position_size (lines 386-400):
identical to the strategy.py variant except that the risked fraction comes
from the risk_per_trade config key. -/
def calcPosV10 (riskPerTrade balance entry sl strength : ℚ) : ℚ :=
  let riskAmount := balance * riskPerTrade * strength
  let riskPerPip := |entry - sl| * 100
  if riskPerPip = 0 then 1 / 100
  else round2 (max (1 / 100) (min (riskAmount / (riskPerPip * 10)) (8 / 10)))

/-- strategy_backup.UsdJpyQuantStrategy.calculate_position_size
(lines 76-91): risk over pip risk at a fixed 0.88 USD pip value, capped at
one lot; zero entry, stop, or pip risk gives 0. -/
def calcPosBackup (riskAmount entry sl : ℚ) : ℚ :=
  if entry = 0 ∨ sl = 0 then 0
  else
    let riskPips := |entry - sl| * 100
    if riskPips = 0 then 0
    else min ((riskAmount / riskPips) / (88 / 100)) 1

/-- strategy_backup_optimized.UsdJpyQuantStrategy.calculate_position_size
(lines 79-88): as the strategy_backup variant but with the dynamic
1000/entry pip value. -/
def calcPosBackupOpt (riskAmount entry sl : ℚ) : ℚ :=
  if entry = 0 ∨ sl = 0 then 0
  else
    let riskPips := |entry - sl| * 100
    if riskPips = 0 then 0
    else min (riskAmount / (riskPips * (1000 / entry))) 1

/-- The cooldown memory of a signal engine: last_signal_idx and
last_signal_time (times in hours; none models Python's None). -/
structure CoolState where
  lastSignalIdx : ℤ
  lastSignalTime : Option ℚ
deriving DecidableEq

/-- Configuration fields of strategy_backup read by the cooldown and entry
logic of _generate_original_signal (signal_cooldown,
min_hours_between_trades, atr_multiplier_sl, risk_per_trade). -/
structure BackupCfg where
  cooldownBars : ℤ
  minHours : ℚ
  slAtrMult : ℚ
  riskPct : ℚ
deriving DecidableEq

/-- Data-dependent inputs of one _generate_original_signal call: n is
len(df); hour is current_time.hour; atr and atrMa are the last row's atr14
and the rolling(50) mean of atr14 there (both means of nonnegative true
ranges); longGate and shortGate are the values of
filters-pass ∧ ((fresh-cross ∧ pullback ∧ momentum ∧ BOS) ∨ turbo) for each
direction, pure functions of the bar data; close comes from the last row. -/
structure BackupIn where
  n : ℕ
  currentTime : ℚ
  hour : ℕ
  close : ℚ
  atr : ℚ
  atrMa : ℚ
  longGate : Bool
  shortGate : Bool
deriving DecidableEq

/-- strategy_backup.UsdJpyQuantStrategy.is_good_trading_hour (lines 66-74):
London open [8, 16) or Asian session [0, 6). -/
def isGoodTradingHour (hour : ℕ) : Bool :=
  decide ((8 ≤ hour ∧ hour < 16) ∨ hour < 6)

/-- The dynamic volatility threshold of _generate_original_signal
(strategy_backup.py lines 246-253): 0.9 in the 13-17 overlap hours, else
0.8. -/
def backupVolThreshold (hour : ℕ) : ℚ :=
  if 13 ≤ hour ∧ hour ≤ 17 then 9 / 10 else 8 / 10

/-- The can_trade cooldown check of _generate_original_signal
(strategy_backup.py lines 500-513), with t = len(df) - 1: bar cooldown and
wall-clock cooldown. -/
def backupCanTrade (cfg : BackupCfg) (st : CoolState) (inp : BackupIn) : Bool :=
  decide (cfg.cooldownBars ≤ (inp.n : ℤ) - 1 - st.lastSignalIdx) &&
    (match st.lastSignalTime with
     | none => true
     | some t0 => decide (cfg.minHours ≤ inp.currentTime - t0))

/-- strategy_backup.UsdJpyQuantStrategy._generate_original_signal, gate and
cooldown-memory skeleton (lines 230-627): the 400-bar warmup (lines
231-232), the trading-hour gate (line 238) and the volatility gate (lines
242-256) each return HOLD leaving the cooldown memory untouched; past them,
each entry block first writes last_signal_idx and last_signal_time (lines
516-517 and 559-560), then computes the position size and still returns
HOLD when that size is at most 0.01 (lines 529-530 and 572-573).  The
volatility ratio divides by atrMa; atrMa is a mean of nonnegative ATR
values and is 0 only on a window whose current ATR is 0 too, where both the
code (a NaN comparison that skips the gate but leaves every downstream
entry gate false) and this model (ℚ gives ratio 0, below the threshold)
end in a HOLD without a memory write. -/
def backupGenerate (cfg : BackupCfg) (st : CoolState) (inp : BackupIn) :
    CoolState × Option Act :=
  if inp.n < 400 then (st, none)
  else if isGoodTradingHour inp.hour = false then (st, none)
  else if inp.atr / inp.atrMa < backupVolThreshold inp.hour then (st, none)
  else if backupCanTrade cfg st inp && inp.longGate then
    let st' : CoolState := ⟨(inp.n : ℤ) - 1, some inp.currentTime⟩
    let slDist := cfg.slAtrMult * inp.atr
    let size := calcPosBackup (10000 * cfg.riskPct) inp.close (inp.close - slDist)
    if size ≤ 1 / 100 then (st', none)
    else (st', some .buy)
  else if backupCanTrade cfg st inp && inp.shortGate then
    let st' : CoolState := ⟨(inp.n : ℤ) - 1, some inp.currentTime⟩
    let slDist := cfg.slAtrMult * inp.atr
    let size := calcPosBackup (10000 * cfg.riskPct) inp.close (inp.close + slDist)
    if size ≤ 1 / 100 then (st', none)
    else (st', some .sell)
  else (st, none)

/-- The exact condition under which _generate_original_signal writes the
cooldown memory: warmup passed, good trading hour, volatility ratio at or
above the threshold, both cooldowns elapsed, and one direction's entry gate
true. -/
def backupMemoryGate (cfg : BackupCfg) (st : CoolState) (inp : BackupIn) : Bool :=
  decide (400 ≤ inp.n) && isGoodTradingHour inp.hour &&
    decide (backupVolThreshold inp.hour ≤ inp.atr / inp.atrMa) &&
    backupCanTrade cfg st inp && (inp.longGate || inp.shortGate)

/-- The strongest candidate produced by the confluence block of
strategy.generate_signal (a pure function of the bar data), with the fields
the cooldown and size logic reads. -/
structure StratSig where
  action : Act
  entry : ℚ
  sl : ℚ
  strength : ℚ
deriving DecidableEq

/-- Data-dependent inputs of one strategy.generate_signal call: the slice
length, the last bar time, the session-filter value and the strongest
candidate (none when no setup). -/
structure StratIn where
  n : ℕ
  currentTime : ℚ
  session : Bool
  best : Option StratSig
deriving DecidableEq

/-- strategy.UsdJpyQuantStrategy.generate_signal, cooldown and emission
skeleton (lines 119-303; cooldown_bars = 2, min_hours_between_trades = 0.5,
min_position_size = 0.01, balance from the config): warmup, session and
cooldown gates return HOLD leaving the memory untouched; a candidate whose
computed size is below 0.01 is rejected as HOLD with the memory untouched
(lines 283-284); otherwise the memory is written (lines 287-288) and the
action returned. -/
def stratGenerate (balance : ℚ) (st : CoolState) (inp : StratIn) :
    CoolState × Option Act :=
  if inp.n < 100 then (st, none)
  else if inp.session = false then (st, none)
  else
    let barOk : Bool := decide ((2 : ℤ) ≤ (inp.n : ℤ) - 1 - st.lastSignalIdx)
    let timeOk : Bool := match st.lastSignalTime with
      | none => true
      | some t0 => decide ((1 / 2 : ℚ) ≤ inp.currentTime - t0)
    if !(barOk && timeOk) then (st, none)
    else match inp.best with
      | none => (st, none)
      | some sig =>
        let size := calcPosStrategy balance sig.entry sig.sl sig.strength
        if size < 1 / 100 then (st, none)
        else (⟨(inp.n : ℤ) - 1, some inp.currentTime⟩, some sig.action)

/-- C4 counterexample: a fully warmed-up call (500 bars) at hour 9 (London
session) with a normal volatility ratio (ATR 1 over a 50-bar ATR mean of 1),
elapsed cooldowns and a passing long entry gate, under a configured
risk_per_trade of 0.0001: the position size computed afterwards is
(1 / 210) / 0.88 = 5/924 ≈ 0.0054 ≤ 0.01, so the call returns HOLD
(strategy_backup.py lines 529-530) — yet the cooldown memory was already
written at lines 516-517, moving it from ⟨-1, none⟩ to ⟨499, some 0⟩.
A HOLD that mutates the cooldown memory contradicts the claim. -/
theorem C4_cooldown_memory_counterexample :
    backupGenerate ⟨48, 12, 21 / 10, 1 / 10000⟩ ⟨-1, Option.none⟩
        ⟨500, 0, 9, 150, 1, 1, true, false⟩ =
      (⟨499, some 0⟩, Option.none) ∧
    (⟨499, some 0⟩ : CoolState) ≠ (⟨-1, Option.none⟩ : CoolState) := by
  constructor
  · have habs : |(21 : ℚ) / 10| = 21 / 10 :=
      abs_of_pos (show (0 : ℚ) < 21 / 10 by norm_num)
    norm_num [backupGenerate, backupCanTrade, backupVolThreshold, isGoodTradingHour,
      calcPosBackup, min_def, habs]
  · intro h
    cases h

theorem backupMemoryGate_of_long (cfg : BackupCfg) (st : CoolState) (inp : BackupIn)
    (h1 : ¬ inp.n < 400) (h2 : ¬ isGoodTradingHour inp.hour = false)
    (h3 : ¬ inp.atr / inp.atrMa < backupVolThreshold inp.hour)
    (h4 : (backupCanTrade cfg st inp && inp.longGate) = true) :
    backupMemoryGate cfg st inp = true := by
  have h4' : backupCanTrade cfg st inp = true ∧ inp.longGate = true := by
    simpa using h4
  rcases h4' with ⟨hct, hl⟩
  have hgood : isGoodTradingHour inp.hour = true := by
    cases hgt : isGoodTradingHour inp.hour
    · exact absurd hgt h2
    · rfl
  have hd1 : decide (400 ≤ inp.n) = true := by
    simp only [decide_eq_true_eq]
    omega
  have hd3 : decide (backupVolThreshold inp.hour ≤ inp.atr / inp.atrMa) = true := by
    simp only [decide_eq_true_eq]
    exact not_lt.mp h3
  simp [backupMemoryGate, hd1, hd3, hgood, hct, hl]

theorem backupMemoryGate_of_short (cfg : BackupCfg) (st : CoolState) (inp : BackupIn)
    (h1 : ¬ inp.n < 400) (h2 : ¬ isGoodTradingHour inp.hour = false)
    (h3 : ¬ inp.atr / inp.atrMa < backupVolThreshold inp.hour)
    (h5 : (backupCanTrade cfg st inp && inp.shortGate) = true) :
    backupMemoryGate cfg st inp = true := by
  have h5' : backupCanTrade cfg st inp = true ∧ inp.shortGate = true := by
    simpa using h5
  rcases h5' with ⟨hct, hs⟩
  have hgood : isGoodTradingHour inp.hour = true := by
    cases hgt : isGoodTradingHour inp.hour
    · exact absurd hgt h2
    · rfl
  have hd1 : decide (400 ≤ inp.n) = true := by
    simp only [decide_eq_true_eq]
    omega
  have hd3 : decide (backupVolThreshold inp.hour ≤ inp.atr / inp.atrMa) = true := by
    simp only [decide_eq_true_eq]
    exact not_lt.mp h3
  simp [backupMemoryGate, hd1, hd3, hgood, hct, hs]

theorem backupGenerate_cases (cfg : BackupCfg) (st : CoolState) (inp : BackupIn) :
    (backupMemoryGate cfg st inp = true ∧
      (backupGenerate cfg st inp).1 = ⟨(inp.n : ℤ) - 1, some inp.currentTime⟩) ∨
    (backupMemoryGate cfg st inp = false ∧ (backupGenerate cfg st inp).1 = st) := by
  simp only [backupGenerate]
  split_ifs with h1 h2 h3 h4 hsz h5 hsz2
  · refine Or.inr ⟨?_, rfl⟩
    have hd : decide (400 ≤ inp.n) = false := by
      simp only [decide_eq_false_iff_not]
      omega
    simp [backupMemoryGate, hd]
  · refine Or.inr ⟨?_, rfl⟩
    simp [backupMemoryGate, h2]
  · refine Or.inr ⟨?_, rfl⟩
    have hd : decide (backupVolThreshold inp.hour ≤ inp.atr / inp.atrMa) = false := by
      simp only [decide_eq_false_iff_not]
      exact not_le.mpr h3
    simp [backupMemoryGate, hd]
  · exact Or.inl ⟨backupMemoryGate_of_long cfg st inp h1 h2 h3 h4, rfl⟩
  · exact Or.inl ⟨backupMemoryGate_of_long cfg st inp h1 h2 h3 h4, rfl⟩
  · exact Or.inl ⟨backupMemoryGate_of_short cfg st inp h1 h2 h3 h5, rfl⟩
  · exact Or.inl ⟨backupMemoryGate_of_short cfg st inp h1 h2 h3 h5, rfl⟩
  · refine Or.inr ⟨?_, rfl⟩
    cases hct : backupCanTrade cfg st inp with
    | false => simp [backupMemoryGate, hct]
    | true =>
      rw [hct] at h4 h5
      simp only [Bool.true_and] at h4 h5
      have hl : inp.longGate = false := by
        cases h : inp.longGate
        · rfl
        · exact absurd h h4
      have hs : inp.shortGate = false := by
        cases h : inp.shortGate
        · rfl
        · exact absurd h h5
      simp [backupMemoryGate, hct, hl, hs]

/-- C4 (amended): strategy.generate_signal updates the cooldown memory if
and only if it returns BUY or SELL (every HOLD leaves the memory exactly as
it was); strategy_backup's _generate_original_signal instead writes the
memory exactly when every gate before the entry blocks passes (400-bar
warmup, trading hour, volatility ratio, both cooldowns, and one direction's
entry gate), which can coincide with a HOLD return when the position size
computed afterwards is at most 0.01. -/
theorem C4_cooldown_memory_amended :
    (∀ (balance : ℚ) (st : CoolState) (inp : StratIn),
        ((stratGenerate balance st inp).2 = none →
          (stratGenerate balance st inp).1 = st) ∧
        (∀ a, (stratGenerate balance st inp).2 = some a →
          (stratGenerate balance st inp).1 =
            ⟨(inp.n : ℤ) - 1, some inp.currentTime⟩)) ∧
    (∀ (cfg : BackupCfg) (st : CoolState) (inp : BackupIn),
        (backupMemoryGate cfg st inp = true →
          (backupGenerate cfg st inp).1 =
            ⟨(inp.n : ℤ) - 1, some inp.currentTime⟩) ∧
        (backupMemoryGate cfg st inp = false →
          (backupGenerate cfg st inp).1 = st)) := by
  constructor
  · intro balance st inp
    simp only [stratGenerate]
    split_ifs
    · exact ⟨fun _ => rfl, fun a h => h.elim⟩
    · exact ⟨fun _ => rfl, fun a h => h.elim⟩
    · exact ⟨fun _ => rfl, fun a h => h.elim⟩
    · cases hbest : inp.best with
      | none => exact ⟨fun _ => rfl, fun a h => by simp at h⟩
      | some sig =>
        simp only
        split_ifs
        · exact ⟨fun _ => rfl, fun a h => h.elim⟩
        · exact ⟨fun h => h.elim, fun a _ => rfl⟩
  · intro cfg st inp
    rcases backupGenerate_cases cfg st inp with ⟨hg, hw⟩ | ⟨hg, hw⟩
    · refine ⟨fun _ => hw, fun hfalse => ?_⟩
      rw [hfalse] at hg
      exact Bool.noConfusion hg
    · refine ⟨fun htrue => ?_, fun _ => hw⟩
      rw [htrue] at hg
      exact Bool.noConfusion hg

/-- Witness for C4 (amended): a warmup HOLD of strategy.generate_signal
leaves the memory untouched, while a call of _generate_original_signal
whose gates all pass writes the memory. -/
theorem C4_cooldown_memory_amended_witness :
    (stratGenerate 10000 ⟨-1, Option.none⟩ ⟨50, 0, true, Option.none⟩).1 =
      (⟨-1, Option.none⟩ : CoolState) ∧
    (backupGenerate ⟨48, 12, 21 / 10, 1 / 10000⟩ ⟨-1, Option.none⟩
        ⟨500, 0, 9, 150, 1, 1, true, false⟩).1 = (⟨499, some 0⟩ : CoolState) := by
  constructor
  · exact (C4_cooldown_memory_amended.1 10000 ⟨-1, Option.none⟩
      ⟨50, 0, true, Option.none⟩).1 (by norm_num [stratGenerate])
  · have h := (C4_cooldown_memory_amended.2 ⟨48, 12, 21 / 10, 1 / 10000⟩
      ⟨-1, Option.none⟩ ⟨500, 0, 9, 150, 1, 1, true, false⟩).1
      (by norm_num [backupMemoryGate, backupCanTrade, isGoodTradingHour,
        backupVolThreshold])
    rw [h]
    norm_num [CoolState.mk.injEq]

/-- C8 counterexample: strategy.py's calculate_position_size returns the
0.01 minimum lot, not 0, when the entry equals the stop. -/
theorem C8_zero_stop_size_counterexample :
    calcPosStrategy 10000 100 100 1 = 1 / 100 ∧ (1 / 100 : ℚ) ≠ 0 := by
  constructor
  · norm_num [calcPosStrategy]
  · norm_num

/-- C8 (amended): a zero stop distance never raises an exception anywhere:
calculate_position_size of strategy_backup.py and of
strategy_backup_optimized.py returns 0 (and strategy_backup's engine then
rejects the signal as HOLD, since 0 ≤ 0.01); calculate_position_size of
strategy.py and of strategy_v10.py instead returns the 0.01 minimum lot, and
strategy.py's generate_signal does not reject such a candidate because 0.01
is not below the 0.01 minimum. -/
theorem C8_zero_stop_size_amended :
    (∀ risk e : ℚ, calcPosBackup risk e e = 0) ∧
    (∀ risk e : ℚ, calcPosBackupOpt risk e e = 0) ∧
    (∀ b e s : ℚ, calcPosStrategy b e e s = 1 / 100) ∧
    (∀ r b e s : ℚ, calcPosV10 r b e e s = 1 / 100) ∧
    (∀ b e s : ℚ, ¬ calcPosStrategy b e e s < 1 / 100) ∧
    (∀ (cfg : BackupCfg) (st : CoolState) (inp : BackupIn),
        inp.atr = 0 → (backupGenerate cfg st inp).2 = none) := by
  have hBackup : ∀ risk e : ℚ, calcPosBackup risk e e = 0 := by
    intro risk e
    simp [calcPosBackup]
  refine ⟨hBackup, ?_, ?_, ?_, ?_, ?_⟩
  · intro risk e
    simp [calcPosBackupOpt]
  · intro b e s
    simp [calcPosStrategy]
  · intro r b e s
    simp [calcPosV10]
  · intro b e s
    simp [calcPosStrategy]
  · intro cfg st inp hatr
    simp only [backupGenerate, hatr, mul_zero, sub_zero, add_zero]
    split_ifs with h1 h2 h3 h4 hsz h5 hsz2
    all_goals try rfl
    all_goals
      exfalso
      apply h3
      rw [zero_div]
      unfold backupVolThreshold
      split_ifs <;> norm_num

/-- Witness for C8 (amended): the backup engine rejects a zero-ATR candidate
as HOLD. -/
theorem C8_zero_stop_size_amended_witness :
    (backupGenerate ⟨48, 12, 21 / 10, 1 / 100⟩ ⟨-1, Option.none⟩
        ⟨500, 0, 9, 150, 0, 1, true, false⟩).2 = Option.none :=
  C8_zero_stop_size_amended.2.2.2.2.2 ⟨48, 12, 21 / 10, 1 / 100⟩ ⟨-1, Option.none⟩
    ⟨500, 0, 9, 150, 0, 1, true, false⟩ rfl

/-- Trade direction key of the AdaptiveRiskManager per-direction
dictionaries. -/
inductive Dir
  | long
  | short
deriving DecidableEq

/-- Outcome label of a trade as passed to update_performance. -/
inductive TradeResult
  | win
  | loss
deriving DecidableEq

/-- One entry of recent_trades.  The timestamp and account balance stored
with it are never read back by any of the verified functions, so only the
fields that are read (result and pnl) are kept. -/
structure TradeRec where
  result : TradeResult
  pnl : ℚ
deriving DecidableEq

/-- Identity of the reason string an is_locked_out verdict carries. -/
inductive LockReason
  | emergency
  | streak
  | cooldown
  | clear
deriving DecidableEq

/-- State of main.AdaptiveRiskManager (lines 324-344).  base_cooldown = 5,
max_cooldown = 60, loss_threshold = 0.02 and consecutive_loss_limit = 3 are
set by the constructor and never written again, but they are instance fields
there and are kept as state fields here.  The per-direction dictionaries are
functions to Option (a missing key is none).  Times are in minutes. -/
structure RiskState where
  recentTrades : List TradeRec
  consecutiveLosses : ℕ
  consecutiveWins : ℕ
  dailyPnl : ℚ
  maxDrawdown : ℚ
  accountPeak : ℚ
  baseCooldown : ℚ
  maxCooldown : ℚ
  lossThreshold : ℚ
  consecutiveLossLimit : ℕ
  lastTradeTime : Dir → Option ℚ
  adaptiveCooldowns : Dir → Option ℚ

/-- The state built by the AdaptiveRiskManager constructor. -/
def initRiskState : RiskState :=
  { recentTrades := [], consecutiveLosses := 0, consecutiveWins := 0,
    dailyPnl := 0, maxDrawdown := 0, accountPeak := 0,
    baseCooldown := 5, maxCooldown := 60, lossThreshold := 2 / 100,
    consecutiveLossLimit := 3,
    lastTradeTime := fun _ => none, adaptiveCooldowns := fun _ => none }

/-- main.AdaptiveRiskManager.update_performance (lines 346-372): append to
the bounded 20-trade window, update the consecutive counters (resetting the
opposite one), accumulate daily pnl, and track peak balance and max drawdown.
The drawdown division is by account_peak, which Python faults on while the
peak is still 0 (ℚ division yields 0 there); the cooldown fields are
untouched either way. -/
def updatePerformance (s : RiskState) (res : TradeResult) (pnl balance : ℚ) :
    RiskState :=
  let trades := s.recentTrades ++ [⟨res, pnl⟩]
  let trades := if 20 < trades.length then trades.drop (trades.length - 20) else trades
  let cl := match res with
    | .loss => s.consecutiveLosses + 1
    | .win => 0
  let cw := match res with
    | .loss => 0
    | .win => s.consecutiveWins + 1
  let peak := if s.accountPeak < balance then balance else s.accountPeak
  let dd := (peak - balance) / peak
  { s with
    recentTrades := trades
    consecutiveLosses := cl
    consecutiveWins := cw
    dailyPnl := s.dailyPnl + pnl
    accountPeak := peak
    maxDrawdown := max s.maxDrawdown dd }

/-- main.AdaptiveRiskManager.calculate_win_rate (lines 374-383) with its
default window of 10: win fraction of the most recent trades, 0.5 when there
are none. -/
def calcWinRate (s : RiskState) : ℚ :=
  let window := if s.recentTrades.length < 10 then s.recentTrades.length else 10
  if window = 0 then 1 / 2
  else
    let recent := s.recentTrades.drop (s.recentTrades.length - window)
    ((recent.filter (fun t => t.result == TradeResult.win)).length : ℚ) / (window : ℚ)

/-- main.AdaptiveRiskManager.calculate_avg_win_loss_ratio (lines 385-394). -/
def calcAvgRatio (s : RiskState) : ℚ :=
  let wins := (s.recentTrades.filter (fun t => t.result == TradeResult.win)).map
    (fun t => t.pnl)
  let losses := (s.recentTrades.filter (fun t => t.result == TradeResult.loss)).map
    (fun t => |t.pnl|)
  if wins = [] ∨ losses = [] then 1
  else
    let avgWin := wins.sum / (wins.length : ℚ)
    let avgLoss := losses.sum / (losses.length : ℚ)
    if 0 < avgLoss then avgWin / avgLoss else 1

/-- The cooldown-increasing factors collected by should_adapt_cooldown
(main.py lines 400-431): consecutive-loss tier, drawdown tier, low-win-rate
tier, poor win/loss ratio, and a recent loss burst (4+ losses in the last
5 trades). -/
def cooldownFactors (s : RiskState) : List ℚ :=
  (if 3 ≤ s.consecutiveLosses then [2]
   else if 2 ≤ s.consecutiveLosses then [3 / 2] else []) ++
  (if 5 / 100 < s.maxDrawdown then [3 / 2]
   else if 3 / 100 < s.maxDrawdown then [13 / 10] else []) ++
  (if calcWinRate s < 3 / 10 then [7 / 5]
   else if calcWinRate s < 2 / 5 then [6 / 5] else []) ++
  (if calcAvgRatio s < 1 then [13 / 10] else []) ++
  (if 5 ≤ s.recentTrades.length ∧
      4 ≤ ((s.recentTrades.drop (s.recentTrades.length - 5)).filter
        (fun t => t.result == TradeResult.loss)).length then [2] else [])

/-- max(factors) when the factor list is nonempty, 1.0 otherwise
(main.py line 434). -/
def cooldownMultiplier (s : RiskState) : ℚ :=
  match cooldownFactors s with
  | [] => 1
  | f :: fs => fs.foldl max f

/-- main.AdaptiveRiskManager.should_adapt_cooldown (lines 396-444): raise
the current cooldown by the strongest applicable factor, cap at max_cooldown,
reduce (never below base_cooldown) on a win streak or on a high win rate with
a good ratio, store per direction and return. -/
def shouldAdaptCooldown (s : RiskState) (d : Dir) : ℚ × RiskState :=
  let current := (s.adaptiveCooldowns d).getD s.baseCooldown
  let c1 := min (current * cooldownMultiplier s) s.maxCooldown
  let c2 :=
    if 3 ≤ s.consecutiveWins then max (c1 * (7 / 10)) s.baseCooldown
    else if 3 / 5 < calcWinRate s ∧ 3 / 2 < calcAvgRatio s then
      max (c1 * (4 / 5)) s.baseCooldown
    else c1
  (c2, { s with adaptiveCooldowns := fun d' => if d' = d then some c2
    else s.adaptiveCooldowns d' })

/-- Python truthiness of the optional account_balance argument of
is_locked_out: None and 0 (or 0.0) are falsy, every other number truthy. -/
def balTruthy : Option ℚ → Bool
  | none => false
  | some b => b != 0

/-- The emergency-drawdown condition of is_locked_out (main.py lines
449-454): truthy balance, positive peak, drawdown from peak above the
threshold. -/
def emergencyFires (s : RiskState) (balance : Option ℚ) : Bool :=
  balTruthy balance && decide (0 < s.accountPeak) &&
    decide (s.lossThreshold < (s.accountPeak - balance.getD 0) / s.accountPeak)

/-- main.AdaptiveRiskManager.is_locked_out (lines 446-470), in its
precedence: emergency drawdown, then consecutive-loss protection, then the
adaptive cooldown of the requested direction (whose should_adapt_cooldown
call mutates adaptive_cooldowns, so the updated state is returned). -/
def isLockedOut (s : RiskState) (d : Dir) (balance : Option ℚ) (now : ℚ) :
    (Bool × LockReason) × RiskState :=
  if emergencyFires s balance then ((true, .emergency), s)
  else if s.consecutiveLossLimit ≤ s.consecutiveLosses then ((true, .streak), s)
  else match s.lastTradeTime d with
    | none => ((false, .clear), s)
    | some lastT =>
      let cd := (shouldAdaptCooldown s d).1
      let s' := (shouldAdaptCooldown s d).2
      if now - lastT < cd then ((true, .cooldown), s')
      else ((false, .clear), s')

theorem updatePerformance_loss_cl (s : RiskState) (p b : ℚ) :
    (updatePerformance s TradeResult.loss p b).consecutiveLosses =
      s.consecutiveLosses + 1 := rfl

theorem updatePerformance_limit (s : RiskState) (r : TradeResult) (p b : ℚ) :
    (updatePerformance s r p b).consecutiveLossLimit = s.consecutiveLossLimit := rfl

/-- C6: after the risk governor ingests three consecutive losing trades (with
no intervening win), is_locked_out reports locked for every direction, every
balance argument and every elapsed time since the last trade; whenever the
emergency-drawdown check does not fire the cited reason is the
consecutive-loss protection, and whenever it does fire the emergency reason
takes precedence — the lockout reasons are evaluated emergency first, then
the consecutive-loss limit, then the adaptive cooldown. -/
theorem C6_consecutive_loss_lockout (s : RiskState)
    (hLim : s.consecutiveLossLimit = 3)
    (p1 p2 p3 b1 b2 b3 : ℚ) (d : Dir) (balance : Option ℚ) (now : ℚ) :
    (isLockedOut (updatePerformance (updatePerformance (updatePerformance s
        TradeResult.loss p1 b1) TradeResult.loss p2 b2) TradeResult.loss p3 b3)
        d balance now).1.1 = true ∧
    (emergencyFires (updatePerformance (updatePerformance (updatePerformance s
        TradeResult.loss p1 b1) TradeResult.loss p2 b2) TradeResult.loss p3 b3)
        balance = false →
      (isLockedOut (updatePerformance (updatePerformance (updatePerformance s
        TradeResult.loss p1 b1) TradeResult.loss p2 b2) TradeResult.loss p3 b3)
        d balance now).1.2 = LockReason.streak) ∧
    (emergencyFires (updatePerformance (updatePerformance (updatePerformance s
        TradeResult.loss p1 b1) TradeResult.loss p2 b2) TradeResult.loss p3 b3)
        balance = true →
      (isLockedOut (updatePerformance (updatePerformance (updatePerformance s
        TradeResult.loss p1 b1) TradeResult.loss p2 b2) TradeResult.loss p3 b3)
        d balance now).1.2 = LockReason.emergency) := by
  set s3 := updatePerformance (updatePerformance (updatePerformance s
    TradeResult.loss p1 b1) TradeResult.loss p2 b2) TradeResult.loss p3 b3 with hs3
  have hcl : s3.consecutiveLosses = s.consecutiveLosses + 3 := by
    rw [hs3, updatePerformance_loss_cl, updatePerformance_loss_cl,
      updatePerformance_loss_cl]
  have hlim3 : s3.consecutiveLossLimit = 3 := by
    rw [hs3, updatePerformance_limit, updatePerformance_limit,
      updatePerformance_limit, hLim]
  have hstreak : s3.consecutiveLossLimit ≤ s3.consecutiveLosses := by
    rw [hcl, hlim3]
    omega
  by_cases hem : emergencyFires s3 balance = true
  · refine ⟨?_, ?_, ?_⟩
    · simp [isLockedOut, hem]
    · intro hfalse
      rw [hem] at hfalse
      cases hfalse
    · intro _
      simp [isLockedOut, hem]
  · have hem' : emergencyFires s3 balance = false := by
      cases h : emergencyFires s3 balance
      · rfl
      · exact absurd h hem
    refine ⟨?_, ?_, ?_⟩
    · simp [isLockedOut, hem', hstreak]
    · intro _
      simp [isLockedOut, hem', hstreak]
    · intro htrue
      rw [hem'] at htrue
      cases htrue

/-- Witness for C6: three concrete losses from the initial state lock out a
long entry with the streak reason even after a million minutes. -/
theorem C6_consecutive_loss_lockout_witness :
    (isLockedOut (updatePerformance (updatePerformance (updatePerformance
        initRiskState TradeResult.loss (-10) 990) TradeResult.loss (-10) 980)
        TradeResult.loss (-10) 970) Dir.long Option.none 1000000).1.1 = true ∧
    (isLockedOut (updatePerformance (updatePerformance (updatePerformance
        initRiskState TradeResult.loss (-10) 990) TradeResult.loss (-10) 980)
        TradeResult.loss (-10) 970) Dir.long Option.none 1000000).1.2 =
      LockReason.streak :=
  ⟨(C6_consecutive_loss_lockout initRiskState rfl (-10) (-10) (-10) 990 980 970
      Dir.long Option.none 1000000).1,
   (C6_consecutive_loss_lockout initRiskState rfl (-10) (-10) (-10) 990 980 970
      Dir.long Option.none 1000000).2.1 rfl⟩

theorem le_foldl_max (l : List ℚ) (a : ℚ) : a ≤ l.foldl max a := by
  induction l generalizing a with
  | nil => exact le_refl _
  | cons x xs ih => exact le_trans (le_max_left a x) (ih (max a x))

theorem mem_ite_singleton {x a : ℚ} {c : Prop} [Decidable c]
    (h : x ∈ (if c then [a] else [])) : x = a := by
  split_ifs at h
  · exact List.mem_singleton.mp h
  · exact absurd h (List.not_mem_nil x)

theorem mem_ite_two {x a b : ℚ} {c c' : Prop} [Decidable c] [Decidable c']
    (h : x ∈ (if c then [a] else if c' then [b] else [])) : x = a ∨ x = b := by
  split_ifs at h
  · exact Or.inl (List.mem_singleton.mp h)
  · exact Or.inr (List.mem_singleton.mp h)
  · exact absurd h (List.not_mem_nil x)

theorem cooldownFactors_members (s : RiskState) :
    ∀ x ∈ cooldownFactors s,
      x = 2 ∨ x = 3 / 2 ∨ x = 13 / 10 ∨ x = 7 / 5 ∨ x = 6 / 5 := by
  intro x hx
  unfold cooldownFactors at hx
  rcases List.mem_append.mp hx with h4 | h
  swap
  · exact Or.inl (mem_ite_singleton h)
  rcases List.mem_append.mp h4 with h3 | h
  swap
  · exact Or.inr (Or.inr (Or.inl (mem_ite_singleton h)))
  rcases List.mem_append.mp h3 with h2 | h
  swap
  · rcases mem_ite_two h with h | h
    · exact Or.inr (Or.inr (Or.inr (Or.inl h)))
    · exact Or.inr (Or.inr (Or.inr (Or.inr h)))
  rcases List.mem_append.mp h2 with h | h
  · rcases mem_ite_two h with h | h
    · exact Or.inl h
    · exact Or.inr (Or.inl h)
  · rcases mem_ite_two h with h | h
    · exact Or.inr (Or.inl h)
    · exact Or.inr (Or.inr (Or.inl h))

theorem one_le_cooldownMultiplier (s : RiskState) : 1 ≤ cooldownMultiplier s := by
  unfold cooldownMultiplier
  cases h : cooldownFactors s with
  | nil => exact le_refl 1
  | cons f fs =>
    have hf : f ∈ cooldownFactors s := by
      rw [h]
      exact List.mem_cons_self _ _
    have h1 : (1 : ℚ) ≤ f := by
      rcases cooldownFactors_members s f hf with h' | h' | h' | h' | h' <;>
        rw [h'] <;> norm_num
    exact le_trans h1 (le_foldl_max fs f)

/-- The bounds invariant of the adaptive cooldown store: the constructor
constants, and every stored per-direction cooldown within [base, max]. -/
def cooldownInv (s : RiskState) : Prop :=
  s.baseCooldown = 5 ∧ s.maxCooldown = 60 ∧
  ∀ d c, s.adaptiveCooldowns d = some c → 5 ≤ c ∧ c ≤ 60

theorem shouldAdaptCooldown_bounds (s : RiskState) (d : Dir)
    (hinv : cooldownInv s) :
    5 ≤ (shouldAdaptCooldown s d).1 ∧ (shouldAdaptCooldown s d).1 ≤ 60 ∧
    cooldownInv (shouldAdaptCooldown s d).2 := by
  obtain ⟨hb, hm, hstore⟩ := hinv
  set cur := (s.adaptiveCooldowns d).getD s.baseCooldown with hcurdef
  have hcur : 5 ≤ cur ∧ cur ≤ 60 := by
    rw [hcurdef]
    cases hd : s.adaptiveCooldowns d with
    | none =>
      simp only [Option.getD, hb]
      norm_num
    | some c => simpa using hstore d c hd
  set c1 := min (cur * cooldownMultiplier s) s.maxCooldown with hc1def
  have hc1lo : 5 ≤ c1 := by
    rw [hc1def, hm]
    refine le_min ?_ (by norm_num)
    nlinarith [hcur.1, one_le_cooldownMultiplier s]
  have hc1hi : c1 ≤ 60 := by
    rw [hc1def, hm]
    exact min_le_right _ _
  have hfst : (shouldAdaptCooldown s d).1 =
      (if 3 ≤ s.consecutiveWins then max (c1 * (7 / 10)) s.baseCooldown
       else if 3 / 5 < calcWinRate s ∧ 3 / 2 < calcAvgRatio s then
         max (c1 * (4 / 5)) s.baseCooldown
       else c1) := rfl
  have hc2 : 5 ≤ (shouldAdaptCooldown s d).1 ∧ (shouldAdaptCooldown s d).1 ≤ 60 := by
    rw [hfst, hb]
    split_ifs
    · exact ⟨le_max_right _ _, max_le (by linarith) (by norm_num)⟩
    · exact ⟨le_max_right _ _, max_le (by linarith) (by norm_num)⟩
    · exact ⟨hc1lo, hc1hi⟩
  have hsnd : (shouldAdaptCooldown s d).2.adaptiveCooldowns =
      fun d' => if d' = d then some (shouldAdaptCooldown s d).1
        else s.adaptiveCooldowns d' := rfl
  refine ⟨hc2.1, hc2.2, hb, hm, ?_⟩
  intro d' c hdc
  simp only [hsnd] at hdc
  by_cases hdd : d' = d
  · rw [if_pos hdd] at hdc
    exact (Option.some.inj hdc) ▸ ⟨hc2.1, hc2.2⟩
  · rw [if_neg hdd] at hdc
    exact hstore d' c hdc

/-- The calls of the risk governor the claim ranges over: a trade outcome
ingested by update_performance, or a should_adapt_cooldown call for a
direction. -/
inductive RiskEvent
  | update (res : TradeResult) (pnl balance : ℚ)
  | adapt (d : Dir)

/-- Apply one risk-governor call to the state. -/
def applyRiskEvent (s : RiskState) : RiskEvent → RiskState
  | .update r p b => updatePerformance s r p b
  | .adapt d => (shouldAdaptCooldown s d).2

/-- The risk-governor state reached from the constructor state by a call
sequence. -/
def runRisk (evs : List RiskEvent) : RiskState :=
  evs.foldl applyRiskEvent initRiskState

theorem cooldownInv_init : cooldownInv initRiskState := by
  refine ⟨rfl, rfl, ?_⟩
  intro d c h
  cases h

theorem cooldownInv_apply (s : RiskState) (e : RiskEvent) (h : cooldownInv s) :
    cooldownInv (applyRiskEvent s e) := by
  cases e with
  | update r p b => exact h
  | adapt d => exact (shouldAdaptCooldown_bounds s d h).2.2

theorem cooldownInv_runRisk (evs : List RiskEvent) : cooldownInv (runRisk evs) := by
  unfold runRisk
  have key : ∀ (l : List RiskEvent) (s : RiskState), cooldownInv s →
      cooldownInv (l.foldl applyRiskEvent s) := by
    intro l
    induction l with
    | nil => exact fun s hs => hs
    | cons e es ih =>
      intro s hs
      exact ih _ (cooldownInv_apply s e hs)
  exact key evs initRiskState cooldownInv_init

/-- C7: for every direction and every state of the risk governor reachable
by any sequence of update_performance and should_adapt_cooldown calls from
the initial state, the value returned by should_adapt_cooldown and every
value stored in adaptive_cooldowns lies within
[base_cooldown, max_cooldown]. -/
theorem C7_adaptive_cooldown_bounds (evs : List RiskEvent) (d : Dir) :
    ((runRisk evs).baseCooldown ≤ (shouldAdaptCooldown (runRisk evs) d).1 ∧
      (shouldAdaptCooldown (runRisk evs) d).1 ≤ (runRisk evs).maxCooldown) ∧
    (∀ d' c, (runRisk evs).adaptiveCooldowns d' = some c →
      (runRisk evs).baseCooldown ≤ c ∧ c ≤ (runRisk evs).maxCooldown) := by
  have hinv := cooldownInv_runRisk evs
  have hbound := shouldAdaptCooldown_bounds (runRisk evs) d hinv
  obtain ⟨hb, hm, hstore⟩ := hinv
  rw [hb, hm]
  exact ⟨⟨hbound.1, hbound.2.1⟩, hstore⟩

/-- Witness for C7: after one should_adapt_cooldown call from the initial
state the stored long cooldown is 5, inside [5, 60]. -/
theorem C7_adaptive_cooldown_bounds_witness :
    (runRisk [RiskEvent.adapt Dir.long]).baseCooldown ≤ 5 ∧
    (5 : ℚ) ≤ (runRisk [RiskEvent.adapt Dir.long]).maxCooldown :=
  (C7_adaptive_cooldown_bounds [RiskEvent.adapt Dir.long] Dir.long).2 Dir.long 5
    (by norm_num [runRisk, applyRiskEvent, shouldAdaptCooldown, cooldownMultiplier,
      cooldownFactors, calcWinRate, calcAvgRatio, initRiskState])

/-- The streak-then-cooldown tail of is_locked_out: the verdict with the
emergency-drawdown branch removed; used to state that a falsy balance
decides the verdict solely by the consecutive-loss limit and the adaptive
cooldown. -/
def lockVerdictNoEmergency (s : RiskState) (d : Dir) (now : ℚ) :
    (Bool × LockReason) × RiskState :=
  if s.consecutiveLossLimit ≤ s.consecutiveLosses then ((true, .streak), s)
  else match s.lastTradeTime d with
    | none => ((false, .clear), s)
    | some lastT =>
      let cd := (shouldAdaptCooldown s d).1
      let s' := (shouldAdaptCooldown s d).2
      if now - lastT < cd then ((true, .cooldown), s')
      else ((false, .clear), s')

/-- C10: is_locked_out with account_balance None and with account_balance 0
behave identically — Python truthiness skips the emergency-drawdown check
for a zero balance just as for an absent one — so the verdict is decided
solely by the consecutive-loss limit and the adaptive cooldown, and in
particular a fully drawn-down account reporting balance 0 can never receive
the emergency-drawdown lockout reason. -/
theorem C10_zero_balance_skips_emergency (s : RiskState) (d : Dir) (now : ℚ) :
    isLockedOut s d Option.none now = lockVerdictNoEmergency s d now ∧
    isLockedOut s d (some 0) now = lockVerdictNoEmergency s d now ∧
    (isLockedOut s d (some 0) now).1.2 ≠ LockReason.emergency := by
  have h1 : emergencyFires s Option.none = false := rfl
  have h2 : emergencyFires s (some 0) = false := by
    simp [emergencyFires, balTruthy]
  have e1 : isLockedOut s d Option.none now = lockVerdictNoEmergency s d now := by
    unfold isLockedOut lockVerdictNoEmergency
    rw [h1]
    simp only [Bool.false_eq_true, if_false]
  have e2 : isLockedOut s d (some 0) now = lockVerdictNoEmergency s d now := by
    unfold isLockedOut lockVerdictNoEmergency
    rw [h2]
    simp only [Bool.false_eq_true, if_false]
  refine ⟨e1, e2, ?_⟩
  rw [e2]
  unfold lockVerdictNoEmergency
  split_ifs
  · simp
  · cases s.lastTradeTime d with
    | none => simp
    | some lastT =>
      simp only
      split_ifs <;> simp

/-- One price bar as consumed by the indicator kernels of
strategy_backup_optimized.calculate_indicators (the open is not read by the
RSI / DI / choppiness computations). -/
structure PriceBar where
  high : ℚ
  low : ℚ
  close : ℚ
deriving DecidableEq

/-- The 1e-10 guard calculate_indicators adds to its denominators. -/
def epsQ : ℚ := 1 / 10000000000

/-- delta.where(delta > 0, 0): the positive part of a close-to-close delta
(line 109 / 116). -/
def gainPart (d : ℚ) : ℚ := max d 0

/-- -(delta.where(delta < 0, 0)): the magnitude of a negative delta
(line 110 / 117). -/
def lossPart (d : ℚ) : ℚ := max (-d) 0

/-- rolling(window).mean() on a full window. -/
def listAvg (l : List ℚ) : ℚ := l.sum / (l.length : ℚ)

/-- The guarded RSI denominator (lines 111 and 118): average loss + 1e-10. -/
def rsiLossDen (deltas : List ℚ) : ℚ := listAvg (deltas.map lossPart) + epsQ

/-- rs = avg gain / (avg loss + 1e-10). -/
def rsiRS (deltas : List ℚ) : ℚ := listAvg (deltas.map gainPart) / rsiLossDen deltas

/-- The second RSI denominator: 1 + rs (lines 112 and 119). -/
def rsiDen2 (deltas : List ℚ) : ℚ := 1 + rsiRS deltas

/-- RSI = 100 - 100 / (1 + rs). -/
def rsiOfDeltas (deltas : List ℚ) : ℚ := 100 - 100 / rsiDen2 deltas

/-- True range of one bar given the previous close (lines 122-125). -/
def trueRange (high low prevClose : ℚ) : ℚ :=
  max (high - low) (max |high - prevClose| |low - prevClose|)

/-- The true ranges of a bar window, threading the previous close. -/
def trList : ℚ → List PriceBar → List ℚ
  | _, [] => []
  | pc, b :: bs => trueRange b.high b.low pc :: trList b.close bs

/-- +DM of one bar pair (line 129): the up-move when it exceeds the
down-move and is positive, else 0. -/
def plusDM (high prevHigh low prevLow : ℚ) : ℚ :=
  if prevLow - low < high - prevHigh ∧ 0 < high - prevHigh then high - prevHigh else 0

/-- -DM of one bar pair (line 130). -/
def minusDM (high prevHigh low prevLow : ℚ) : ℚ :=
  if high - prevHigh < prevLow - low ∧ 0 < prevLow - low then prevLow - low else 0

/-- The guarded DI denominator (lines 132-134): window true-range sum
+ 1e-10. -/
def diDen (trs : List ℚ) : ℚ := trs.sum + epsQ

/-- +DI (and, with the -DM sums, -DI): 100 · (DM sum / guarded TR sum). -/
def plusDI (dms trs : List ℚ) : ℚ := 100 * (dms.sum / diDen trs)

/-- The guarded DX denominator (line 135): +DI + -DI + 1e-10. -/
def dxDen (pdi mdi : ℚ) : ℚ := pdi + mdi + epsQ

/-- DX = |+DI - -DI| / (+DI + -DI + 1e-10) · 100. -/
def dx (pdi mdi : ℚ) : ℚ := |pdi - mdi| / dxDen pdi mdi * 100

/-- The guarded choppiness denominator (lines 143-147): window high-low
range + 1e-10. -/
def chopDen (mxHigh mnLow : ℚ) : ℚ := (mxHigh - mnLow) + epsQ

/-- The argument the choppiness computation passes to np.log10
(line 147): true-range sum over the guarded range.  log10 of it is finite
iff it is positive: np.log10(0) = -inf. -/
def chopLogArg (trSum mxHigh mnLow : ℚ) : ℚ := trSum / chopDen mxHigh mnLow

/-- rolling(window).max() of the highs over a full window. -/
def maxHigh : List PriceBar → ℚ
  | [] => 0
  | b :: bs => bs.foldl (fun a c => max a c.high) b.high

/-- rolling(window).min() of the lows over a full window. -/
def minLow : List PriceBar → ℚ
  | [] => 0
  | b :: bs => bs.foldl (fun a c => min a c.low) b.low

/-- The choppiness log10 argument over a concrete bar window given the
previous close. -/
def chopLogArgBars (pc : ℚ) (bars : List PriceBar) : ℚ :=
  chopLogArg (trList pc bars).sum (maxHigh bars) (minLow bars)

/-- A bar with all prices equal. -/
def constBar (c : ℚ) : PriceBar := ⟨c, c, c⟩

theorem epsQ_pos : 0 < epsQ := by norm_num [epsQ]

theorem trueRange_nonneg (h l pc : ℚ) : 0 ≤ trueRange h l pc :=
  le_trans (abs_nonneg (h - pc)) (le_trans (le_max_left _ _) (le_max_right _ _))

theorem trList_sum_nonneg (pc : ℚ) (bars : List PriceBar) :
    0 ≤ (trList pc bars).sum := by
  induction bars generalizing pc with
  | nil => exact le_refl 0
  | cons b bs ih =>
    simp only [trList, List.sum_cons]
    have := trueRange_nonneg b.high b.low pc
    have := ih b.close
    linarith

theorem le_foldl_max_high (l : List PriceBar) (a : ℚ) :
    a ≤ l.foldl (fun x c => max x c.high) a := by
  induction l generalizing a with
  | nil => exact le_refl _
  | cons b bs ih => exact le_trans (le_max_left a b.high) (ih (max a b.high))

theorem foldl_min_low_le (l : List PriceBar) (a : ℚ) :
    l.foldl (fun x c => min x c.low) a ≤ a := by
  induction l generalizing a with
  | nil => exact le_refl _
  | cons b bs ih => exact le_trans (ih (min a b.low)) (min_le_left a b.low)

theorem minLow_le_maxHigh (bars : List PriceBar) (hne : bars ≠ [])
    (hwf : ∀ b ∈ bars, b.low ≤ b.high) : minLow bars ≤ maxHigh bars := by
  cases bars with
  | nil => exact absurd rfl hne
  | cons b bs =>
    have h1 : minLow (b :: bs) ≤ b.low := foldl_min_low_le bs b.low
    have h2 : b.high ≤ maxHigh (b :: bs) := le_foldl_max_high bs b.high
    have h3 : b.low ≤ b.high := hwf b (List.mem_cons_self _ _)
    calc minLow (b :: bs) ≤ b.low := h1
    _ ≤ b.high := h3
    _ ≤ maxHigh (b :: bs) := h2

/-- C9 counterexample: on a window of 14 bars whose prices are all equal to
the previous close, every true range is 0, so the argument the choppiness
computation passes to np.log10 is 0: np.log10(0) is -inf, hence the
choppiness value on this degenerate input is -inf, not finite.  The 1e-10
epsilon guards the denominator of the ratio, not the log of zero. -/
theorem C9_chop_log_zero_counterexample :
    chopLogArgBars 100 (List.replicate 14 (constBar 100)) = 0 ∧
    ¬ 0 < chopLogArgBars 100 (List.replicate 14 (constBar 100)) := by
  have h : chopLogArgBars 100 (List.replicate 14 (constBar 100)) = 0 := by
    norm_num [chopLogArgBars, chopLogArg, chopDen, trList, trueRange, maxHigh,
      minLow, constBar, epsQ, List.replicate]
  exact ⟨h, by rw [h]; norm_num⟩

/-- C9 (amended): the epsilon guards make every RSI and ±DI denominator of
calculate_indicators strictly positive on every input, and the DM and true
range sums nonnegative, so RSI, +DI, -DI and DX are always finite (no zero
denominator, no NaN); the choppiness denominator is positive on every
well-formed window (high ≥ low), but the log10 argument is positive — and
the choppiness finite — only when the window's true-range sum is positive. -/
theorem C9_epsilon_guards_amended :
    (∀ deltas : List ℚ, 0 < rsiLossDen deltas) ∧
    (∀ deltas : List ℚ, 0 < rsiDen2 deltas) ∧
    (∀ (pc : ℚ) (bars : List PriceBar), 0 < diDen (trList pc bars)) ∧
    (∀ h ph l pl : ℚ, 0 ≤ plusDM h ph l pl ∧ 0 ≤ minusDM h ph l pl) ∧
    (∀ (dms : List ℚ) (pc : ℚ) (bars : List PriceBar),
        (∀ x ∈ dms, 0 ≤ x) → 0 ≤ plusDI dms (trList pc bars)) ∧
    (∀ pdi mdi : ℚ, 0 ≤ pdi → 0 ≤ mdi → 0 < dxDen pdi mdi) ∧
    (∀ bars : List PriceBar, bars ≠ [] → (∀ b ∈ bars, b.low ≤ b.high) →
        0 < chopDen (maxHigh bars) (minLow bars)) ∧
    (∀ (pc : ℚ) (bars : List PriceBar), bars ≠ [] →
        (∀ b ∈ bars, b.low ≤ b.high) → 0 < (trList pc bars).sum →
        0 < chopLogArgBars pc bars) := by
  have hLossDen : ∀ deltas : List ℚ, 0 < rsiLossDen deltas := by
    intro deltas
    unfold rsiLossDen listAvg
    have hsum : 0 ≤ (deltas.map lossPart).sum := by
      apply List.sum_nonneg
      intro x hx
      obtain ⟨d, _, rfl⟩ := List.mem_map.mp hx
      exact le_max_right _ _
    have hlen : (0 : ℚ) ≤ ((deltas.map lossPart).length : ℚ) := by positivity
    have := div_nonneg hsum hlen
    have := epsQ_pos
    linarith
  have hChopDen : ∀ bars : List PriceBar, bars ≠ [] →
      (∀ b ∈ bars, b.low ≤ b.high) → 0 < chopDen (maxHigh bars) (minLow bars) := by
    intro bars hne hwf
    unfold chopDen
    have := minLow_le_maxHigh bars hne hwf
    have := epsQ_pos
    linarith
  refine ⟨hLossDen, ?_, ?_, ?_, ?_, ?_, hChopDen, ?_⟩
  · intro deltas
    unfold rsiDen2 rsiRS
    have hgain : 0 ≤ (deltas.map gainPart).sum := by
      apply List.sum_nonneg
      intro x hx
      obtain ⟨d, _, rfl⟩ := List.mem_map.mp hx
      exact le_max_right _ _
    have hlen : (0 : ℚ) ≤ ((deltas.map gainPart).length : ℚ) := by positivity
    have hrs : 0 ≤ listAvg (deltas.map gainPart) / rsiLossDen deltas := by
      apply div_nonneg
      · exact div_nonneg hgain hlen
      · exact le_of_lt (hLossDen deltas)
    linarith
  · intro pc bars
    unfold diDen
    have := trList_sum_nonneg pc bars
    have := epsQ_pos
    linarith
  · intro h ph l pl
    constructor
    · unfold plusDM
      split_ifs with hc
      · linarith [hc.2]
      · exact le_refl 0
    · unfold minusDM
      split_ifs with hc
      · linarith [hc.2]
      · exact le_refl 0
  · intro dms pc bars hdm
    unfold plusDI
    have hsum : 0 ≤ dms.sum := List.sum_nonneg hdm
    have hden : 0 < diDen (trList pc bars) := by
      unfold diDen
      have := trList_sum_nonneg pc bars
      have := epsQ_pos
      linarith
    positivity
  · intro pdi mdi hp hm
    unfold dxDen
    have := epsQ_pos
    linarith
  · intro pc bars hne hwf hsum
    unfold chopLogArgBars chopLogArg
    exact div_pos hsum (hChopDen bars hne hwf)

/-- Witness for C9 (amended): a single well-formed bar with a positive range
has a positive choppiness log argument, and a nonnegative +DM list gives a
nonnegative +DI. -/
theorem C9_epsilon_guards_amended_witness :
    0 < chopLogArgBars 100 [⟨101, 99, 100⟩] ∧
    0 ≤ plusDI [1] (trList 100 [⟨101, 99, 100⟩, ⟨102, 100, 101⟩]) ∧
    0 < dxDen 10 20 :=
  ⟨C9_epsilon_guards_amended.2.2.2.2.2.2.2 100 [⟨101, 99, 100⟩]
      (by simp) (by intro b hb; rw [List.mem_singleton] at hb; subst hb; norm_num)
      (by norm_num [trList, trueRange]),
   C9_epsilon_guards_amended.2.2.2.2.1 [1] 100 [⟨101, 99, 100⟩, ⟨102, 100, 101⟩]
      (by intro x hx; rw [List.mem_singleton] at hx; subst hx; norm_num),
   C9_epsilon_guards_amended.2.2.2.2.2.1 10 20 (by norm_num) (by norm_num)⟩
